import Mathlib

/-!
Verification development for the metadata cache of `services/metadataCache.js`
(paperless-ai-enhanced). The JavaScript class `MetadataCache` keeps three
`Map`s (tags, correspondents, documentTypes), a `lastUpdate` timestamp per
category, hit/miss/refresh counters per category, and one TTL. The three
per-category code paths (`ensureTags` / `ensureCorrespondents` /
`ensureDocumentTypes`, `refreshTags` / ..., `addTag` / ...) are
character-identical up to the field they touch, so they are embedded once,
parameterised by a `Category` index. Wall-clock time (`Date.now()`) is an
explicit `now : Nat` argument (milliseconds); the upstream service call
(`paperlessService.getTags()` etc.) is an explicit `Except String (List Record)`
argument, `.error` standing for a rejected promise. Every operation returns a
`RunResult` carrying the JS return value, the post-state, and the number of
upstream calls it issued.
-/

/-- A cached record, per the upstream payload shape `{id, name, ...}`.
Identity is `id`. -/
structure Record where
  id : Nat
  name : String
deriving DecidableEq

/-- The entries of one category: a JS `Map` from id to record, modelled as an
association list in insertion order (JS `Map` preserves insertion order, and
`set` on an existing key keeps its original position). -/
abbrev Entries := List (Nat × Record)

/-- JS `Map.prototype.set`: replace in place when the key exists, append
otherwise. -/
def entriesSet (m : Entries) (k : Nat) (v : Record) : Entries :=
  if m.any (fun p => p.1 == k) then
    m.map (fun p => if p.1 == k then (k, v) else p)
  else
    m ++ [(k, v)]

/-- JS `Map.prototype.get`, as used through `Array.from(map.values())` lookups. -/
def entriesGet (m : Entries) (k : Nat) : Option Record :=
  (m.find? (fun p => p.1 == k)).map Prod.snd

/-- JS `Array.from(map.values())`: the records in insertion order. -/
def entriesValues (m : Entries) : List Record :=
  m.map Prod.snd

/-- JS `map.size`. -/
def entriesSize (m : Entries) : Nat :=
  m.length

/-- The three reference-data categories of the cache. -/
inductive Category
  | tags
  | correspondents
  | documentTypes
deriving DecidableEq

/-- Per-category cached data: one `Map` plus its `lastUpdate` timestamp
(`null` in JS is `none`). -/
structure CatState where
  entries : Entries
  lastUpdate : Option Nat
deriving DecidableEq

/-- Per-category counters from `this.stats`. -/
structure CatStats where
  hits : Nat
  misses : Nat
  refreshes : Nat
deriving DecidableEq

/-- The state of the `MetadataCache` class instance: three category states,
three counter blocks, and the configured `CACHE_TTL` (milliseconds). -/
structure MetadataCache where
  tags : CatState
  correspondents : CatState
  documentTypes : CatState
  statsTags : CatStats
  statsCorrespondents : CatStats
  statsDocumentTypes : CatStats
  CACHE_TTL : Nat
deriving DecidableEq

/-- The constructor state: empty maps, `lastUpdate` all `null`, all counters
zero, TTL from configuration. -/
def initCache (ttl : Nat) : MetadataCache :=
  { tags := { entries := [], lastUpdate := none }
    correspondents := { entries := [], lastUpdate := none }
    documentTypes := { entries := [], lastUpdate := none }
    statsTags := { hits := 0, misses := 0, refreshes := 0 }
    statsCorrespondents := { hits := 0, misses := 0, refreshes := 0 }
    statsDocumentTypes := { hits := 0, misses := 0, refreshes := 0 }
    CACHE_TTL := ttl }

/-- Read the category state selected by `type` (JS property dispatch
`this.tags` / `this.correspondents` / `this.documentTypes`). -/
def MetadataCache.cat (s : MetadataCache) : Category → CatState
  | Category.tags => s.tags
  | Category.correspondents => s.correspondents
  | Category.documentTypes => s.documentTypes

/-- Write the category state selected by `c`. -/
def MetadataCache.setCat (s : MetadataCache) (c : Category) (x : CatState) :
    MetadataCache :=
  match c with
  | Category.tags => { s with tags := x }
  | Category.correspondents => { s with correspondents := x }
  | Category.documentTypes => { s with documentTypes := x }

/-- Read the counters of category `c` (JS `this.stats.hits[c]` etc., grouped
per category). -/
def MetadataCache.statFor (s : MetadataCache) : Category → CatStats
  | Category.tags => s.statsTags
  | Category.correspondents => s.statsCorrespondents
  | Category.documentTypes => s.statsDocumentTypes

/-- Write the counters of category `c`. -/
def MetadataCache.setStat (s : MetadataCache) (c : Category) (x : CatStats) :
    MetadataCache :=
  match c with
  | Category.tags => { s with statsTags := x }
  | Category.correspondents => { s with statsCorrespondents := x }
  | Category.documentTypes => { s with statsDocumentTypes := x }

/-- The pure TTL decision at the heart of `_isCacheValid(type)`:
`if (!lastUpdate) return false; const age = now - lastUpdate; return age < CACHE_TTL`.
The subtraction is done in `Int` to match JS number arithmetic. -/
def isValidAt (lastUpdate : Option Nat) (ttl : Nat) (now : Nat) : Bool :=
  match lastUpdate with
  | none => false
  | some t => decide ((now : Int) - (t : Int) < (ttl : Int))

/-- `_isCacheValid(type)` on the cache state, with `Date.now()` explicit. -/
def MetadataCache.isCacheValid (s : MetadataCache) (c : Category) (now : Nat) :
    Bool :=
  isValidAt (s.cat c).lastUpdate s.CACHE_TTL now

/-- `getCacheAge(type)`: `"Never"` when `lastUpdate` is absent, otherwise
`"{minutes}m {seconds}s"` with `Math.floor` arithmetic. -/
def getCacheAgeFrom (lastUpdate : Option Nat) (now : Nat) : String :=
  match lastUpdate with
  | none => "Never"
  | some t =>
    let age := now - t
    let minutes := age / 60000
    let seconds := (age % 60000) / 1000
    toString minutes ++ "m " ++ toString seconds ++ "s"

/-- `getCacheAge` on the cache state. -/
def MetadataCache.getCacheAge (s : MetadataCache) (c : Category) (now : Nat) :
    String :=
  getCacheAgeFrom (s.cat c).lastUpdate now

deriving instance DecidableEq for Except

/-- Result of running one async method: the JS return value (or the propagated
error), the post-state of the cache instance, and how many upstream service
calls were issued during the run. -/
structure RunResult where
  out : Except String (List Record)
  state : MetadataCache
  fetchCalls : Nat
deriving DecidableEq

/-- `refreshTags(paperlessService)` (and its two siblings), parameterised by
category. The counter increment `this.stats.refreshes[c]++` sits inside the
`try` before the `await`, so it happens whether or not the upstream call
rejects. On success the map is cleared and repopulated from the fetched list
(`tags.forEach(tag => this.tags.set(tag.id, tag))`), `lastUpdate[c]` is set to
now, and `Array.from(map.values())` is returned. On rejection the `catch`
logs and rethrows, leaving entries and `lastUpdate` untouched. -/
def refreshRun (s : MetadataCache) (c : Category) (now : Nat)
    (fetch : Except String (List Record)) : RunResult :=
  let st := s.statFor c
  let s1 := s.setStat c { st with refreshes := st.refreshes + 1 }
  match fetch with
  | Except.ok recs =>
    let newEntries := recs.foldl (fun m r => entriesSet m r.id r) []
    let s2 := s1.setCat c { entries := newEntries, lastUpdate := some now }
    { out := Except.ok (entriesValues newEntries), state := s2, fetchCalls := 1 }
  | Except.error e =>
    { out := Except.error e, state := s1, fetchCalls := 1 }

/-- The hit condition of `ensureTags` and siblings:
`this._isCacheValid(c) && this.{c}.size > 0`. -/
def ensureHit (s : MetadataCache) (c : Category) (now : Nat) : Bool :=
  s.isCacheValid c now && decide (0 < entriesSize (s.cat c).entries)

/-- `ensureTags(paperlessService)` (and siblings), parameterised by category.
On a hit: `stats.hits[c]++` and return `Array.from(map.values())` without an
upstream call. Otherwise: `stats.misses[c]++`, `await refresh(c)`, then
return `Array.from(map.values())` re-read from the refreshed state; a
rejection inside the refresh propagates out of `ensure`. -/
def ensureRun (s : MetadataCache) (c : Category) (now : Nat)
    (fetch : Except String (List Record)) : RunResult :=
  if ensureHit s c now then
    let st := s.statFor c
    { out := Except.ok (entriesValues (s.cat c).entries)
      state := s.setStat c { st with hits := st.hits + 1 }
      fetchCalls := 0 }
  else
    let st := s.statFor c
    let s1 := s.setStat c { st with misses := st.misses + 1 }
    let r := refreshRun s1 c now fetch
    match r.out with
    | Except.ok _ =>
      { out := Except.ok (entriesValues ((r.state.cat c).entries))
        state := r.state
        fetchCalls := r.fetchCalls }
    | Except.error e =>
      { out := Except.error e, state := r.state, fetchCalls := r.fetchCalls }

/-- `refreshAll(paperlessService)`: `Promise.all` over the three refreshes.
They touch disjoint state, so the concurrent execution is equivalent to this
sequential composition; each category's refresh runs to completion even when
another rejects (already-succeeded categories keep their new state). -/
def refreshAllState (s : MetadataCache) (now : Nat)
    (ft fc fd : Except String (List Record)) : MetadataCache :=
  let s1 := (refreshRun s Category.tags now ft).state
  let s2 := (refreshRun s1 Category.correspondents now fc).state
  (refreshRun s2 Category.documentTypes now fd).state

/-- `clearAll()`: clear the three maps and null the three `lastUpdate`
timestamps; counters are not touched and no upstream call is made. -/
def clearAllRun (s : MetadataCache) : MetadataCache :=
  { s with
    tags := { entries := [], lastUpdate := none }
    correspondents := { entries := [], lastUpdate := none }
    documentTypes := { entries := [], lastUpdate := none } }

/-- `addTag(tag)` / `addCorrespondent(c)` / `addDocumentType(d)`,
parameterised by category: a single `map.set(r.id, r)`; `lastUpdate` and all
counters are untouched. -/
def addOneRun (s : MetadataCache) (c : Category) (r : Record) : MetadataCache :=
  s.setCat c
    { entries := entriesSet (s.cat c).entries r.id r
      lastUpdate := (s.cat c).lastUpdate }

/-- `resetStats()`: zero every counter, touch nothing else. -/
def resetStatsRun (s : MetadataCache) : MetadataCache :=
  { s with
    statsTags := { hits := 0, misses := 0, refreshes := 0 }
    statsCorrespondents := { hits := 0, misses := 0, refreshes := 0 }
    statsDocumentTypes := { hits := 0, misses := 0, refreshes := 0 } }

/-- One per-category block of the `getStats()` return value. -/
structure CatStatSnapshot where
  size : Nat
  lastUpdate : Option Nat
  age : String
  valid : Bool
  hits : Nat
  misses : Nat
  refreshes : Nat
deriving DecidableEq

/-- The `overall` block of `getStats()`. The JS code renders `hitRate` with
`toFixed(2)`; here it is kept as the exact rational
`totalHits / totalRequests * 100` (and `0` when there were no requests), and
`cacheTTL` as the exact `CACHE_TTL / 60000` minutes. -/
structure OverallSnapshot where
  totalHits : Nat
  totalMisses : Nat
  totalRequests : Nat
  hitRate : ℚ
  cacheTTLMinutes : ℚ
deriving DecidableEq

/-- The full `getStats()` return value. -/
structure StatsSnapshot where
  tags : CatStatSnapshot
  correspondents : CatStatSnapshot
  documentTypes : CatStatSnapshot
  overall : OverallSnapshot
deriving DecidableEq

/-- One per-category block of `getStats()`. -/
def catSnapshot (s : MetadataCache) (c : Category) (now : Nat) :
    CatStatSnapshot :=
  { size := entriesSize (s.cat c).entries
    lastUpdate := (s.cat c).lastUpdate
    age := s.getCacheAge c now
    valid := s.isCacheValid c now
    hits := (s.statFor c).hits
    misses := (s.statFor c).misses
    refreshes := (s.statFor c).refreshes }

/-- `getStats()`, with `Date.now()` explicit. Reads every field; assigns
none. -/
def getStats (s : MetadataCache) (now : Nat) : StatsSnapshot :=
  let totalHits := s.statsTags.hits + s.statsCorrespondents.hits +
    s.statsDocumentTypes.hits
  let totalMisses := s.statsTags.misses + s.statsCorrespondents.misses +
    s.statsDocumentTypes.misses
  let totalRequests := totalHits + totalMisses
  let hitRate : ℚ :=
    if 0 < totalRequests then (totalHits : ℚ) / (totalRequests : ℚ) * 100 else 0
  { tags := catSnapshot s Category.tags now
    correspondents := catSnapshot s Category.correspondents now
    documentTypes := catSnapshot s Category.documentTypes now
    overall :=
      { totalHits := totalHits
        totalMisses := totalMisses
        totalRequests := totalRequests
        hitRate := hitRate
        cacheTTLMinutes := (s.CACHE_TTL : ℚ) / 60000 } }

/-- `getStats()` as a state-passing run: the method contains no assignment,
so the post-state is the pre-state. -/
def getStatsRun (s : MetadataCache) (now : Nat) :
    StatsSnapshot × MetadataCache :=
  (getStats s now, s)

/-!
Trace machinery: the public operations as a step relation, a hit/miss count
along an execution, and a ghost history bit per category recording whether a
refresh has succeeded since the last `clearAll` (needed to state the §3
invariant, which refers to execution history, not just state).
-/

/-- One public operation on the cache, with its explicit time and upstream
fetch outcome(s). -/
inductive Op
  | ensure (c : Category) (now : Nat) (fetch : Except String (List Record))
  | refresh (c : Category) (now : Nat) (fetch : Except String (List Record))
  | refreshAll (now : Nat) (ft fc fd : Except String (List Record))
  | clearAll
  | addOne (c : Category) (r : Record)
  | resetStats
deriving DecidableEq

/-- State transition of one operation. -/
def step (s : MetadataCache) : Op → MetadataCache
  | Op.ensure c now f => (ensureRun s c now f).state
  | Op.refresh c now f => (refreshRun s c now f).state
  | Op.refreshAll now ft fc fd => refreshAllState s now ft fc fd
  | Op.clearAll => clearAllRun s
  | Op.addOne c r => addOneRun s c r
  | Op.resetStats => resetStatsRun s

/-- Run a list of operations front to back. -/
def runOps (s : MetadataCache) : List Op → MetadataCache
  | [] => s
  | op :: rest => runOps (step s op) rest

/-- Whether an operation, executed in state `s`, is an `ensure` that takes the
hit path. -/
def isHitStep (s : MetadataCache) : Op → Bool
  | Op.ensure c now _ => ensureHit s c now
  | _ => false

/-- Whether an operation, executed in state `s`, is an `ensure` that takes the
miss path. -/
def isMissStep (s : MetadataCache) : Op → Bool
  | Op.ensure c now _ => ! ensureHit s c now
  | _ => false

/-- Number of hit-path `ensure`s along the execution of `ops` from `s`. -/
def countHits (s : MetadataCache) : List Op → Nat
  | [] => 0
  | op :: rest =>
    (if isHitStep s op then 1 else 0) + countHits (step s op) rest

/-- Number of miss-path `ensure`s along the execution of `ops` from `s`. -/
def countMisses (s : MetadataCache) : List Op → Nat
  | [] => 0
  | op :: rest =>
    (if isMissStep s op then 1 else 0) + countMisses (step s op) rest

/-- Ghost history: per category, whether a refresh has succeeded since the
last `clearAll` (or since construction). -/
structure Hist where
  tagsOk : Bool
  correspondentsOk : Bool
  documentTypesOk : Bool
deriving DecidableEq

/-- Read the history bit of a category. -/
def Hist.flag (h : Hist) : Category → Bool
  | Category.tags => h.tagsOk
  | Category.correspondents => h.correspondentsOk
  | Category.documentTypes => h.documentTypesOk

/-- Set the history bit of a category. -/
def Hist.setFlag (h : Hist) (c : Category) (b : Bool) : Hist :=
  match c with
  | Category.tags => { h with tagsOk := b }
  | Category.correspondents => { h with correspondentsOk := b }
  | Category.documentTypes => { h with documentTypesOk := b }

/-- History at construction: no refresh has succeeded yet. -/
def histInit : Hist :=
  { tagsOk := false, correspondentsOk := false, documentTypesOk := false }

/-- History transition of one operation: a successful fetch consumed by a
refresh (direct, inside a missing `ensure`, or inside `refreshAll`) sets the
category's bit; `clearAll` resets all three; nothing else changes them. -/
def hstepHist (s : MetadataCache) (h : Hist) : Op → Hist
  | Op.ensure c now f =>
    if ensureHit s c now then h
    else match f with
      | Except.ok _ => h.setFlag c true
      | Except.error _ => h
  | Op.refresh c _ f =>
    match f with
    | Except.ok _ => h.setFlag c true
    | Except.error _ => h
  | Op.refreshAll _ ft fc fd =>
    let h1 := match ft with
      | Except.ok _ => h.setFlag Category.tags true
      | Except.error _ => h
    let h2 := match fc with
      | Except.ok _ => h1.setFlag Category.correspondents true
      | Except.error _ => h1
    match fd with
    | Except.ok _ => h2.setFlag Category.documentTypes true
    | Except.error _ => h2
  | Op.clearAll => histInit
  | Op.addOne _ _ => h
  | Op.resetStats => h

/-- Combined state-and-history transition. -/
def hstep (p : MetadataCache × Hist) (op : Op) : MetadataCache × Hist :=
  (step p.1 op, hstepHist p.1 p.2 op)

/-- Run a list of operations with history tracking. -/
def hrun (p : MetadataCache × Hist) : List Op → MetadataCache × Hist
  | [] => p
  | op :: rest => hrun (hstep p op) rest

/-!
Interleaving model for concurrent `ensure` calls on the same category.
Node's event loop runs an `ensureTags` call synchronously from its entry to
the `await paperlessService.getTags()` inside `refreshTags` (phase 1); the
continuation after that promise settles — clear, repopulate, set
`lastUpdate`, and the final `return Array.from(...)` of `ensureTags` — is
again one synchronous block (phase 2). A hit-path call completes entirely
inside phase 1. Two overlapping `ensure` calls therefore execute as an
interleaving of these atomic blocks.
-/

/-- Phase 1 of an `ensure` call: the synchronous prefix up to (and including)
issuing the upstream fetch. Returns `some snapshot` when the call completed
on the hit path (no fetch issued), `none` when it incremented the miss and
refresh counters and suspended on the upstream call (one fetch issued). -/
def ensurePhase1 (s : MetadataCache) (c : Category) (now : Nat) :
    MetadataCache × Option (List Record) :=
  if ensureHit s c now then
    let st := s.statFor c
    (s.setStat c { st with hits := st.hits + 1 },
      some (entriesValues (s.cat c).entries))
  else
    let st := s.statFor c
    let s1 := s.setStat c { st with misses := st.misses + 1 }
    let st1 := s1.statFor c
    (s1.setStat c { st1 with refreshes := st1.refreshes + 1 }, none)

/-- Phase 2 of a suspended `ensure` call: the synchronous continuation after
its upstream fetch settles. On fulfilment: clear-and-repopulate, set
`lastUpdate`, return the snapshot. On rejection: rethrow, state untouched. -/
def ensurePhase2 (s : MetadataCache) (c : Category) (now : Nat)
    (fetch : Except String (List Record)) :
    MetadataCache × Except String (List Record) :=
  match fetch with
  | Except.ok recs =>
    let newEntries := recs.foldl (fun m r => entriesSet m r.id r) []
    let s2 := s.setCat c { entries := newEntries, lastUpdate := some now }
    (s2, Except.ok (entriesValues newEntries))
  | Except.error e => (s, Except.error e)

/-- Two concurrent `ensure` calls on the same category under the schedule in
which both run their phase 1 before either upstream fetch settles (the
natural schedule when both are triggered in the same tick). Returns the final
state, the total number of upstream fetches issued, and the two calls'
results. -/
def twoEnsureBothStart (s : MetadataCache) (c : Category) (now : Nat)
    (fA fB : Except String (List Record)) :
    MetadataCache × Nat × Except String (List Record) ×
      Except String (List Record) :=
  let (s1, r1) := ensurePhase1 s c now
  let (s2, r2) := ensurePhase1 s1 c now
  match r1, r2 with
  | some vA, some vB => (s2, 0, Except.ok vA, Except.ok vB)
  | some vA, none =>
    let (s3, outB) := ensurePhase2 s2 c now fB
    (s3, 1, Except.ok vA, outB)
  | none, some vB =>
    let (s3, outA) := ensurePhase2 s2 c now fA
    (s3, 1, outA, Except.ok vB)
  | none, none =>
    let (s3, outA) := ensurePhase2 s2 c now fA
    let (s4, outB) := ensurePhase2 s3 c now fB
    (s4, 2, outA, outB)

/-- The aggregate `totalHits` computed by `getStats()`. -/
def totalHitsOf (s : MetadataCache) : Nat :=
  s.statsTags.hits + s.statsCorrespondents.hits + s.statsDocumentTypes.hits

/-- The aggregate `totalMisses` computed by `getStats()`. -/
def totalMissesOf (s : MetadataCache) : Nat :=
  s.statsTags.misses + s.statsCorrespondents.misses +
    s.statsDocumentTypes.misses

/-- A concrete operation sequence with one miss-path and one hit-path
`ensure` on tags, used to witness the stats claim. -/
def opsC8 : List Op :=
  [Op.ensure Category.tags 0 (Except.ok [{ id := 1, name := "a" }]),
   Op.ensure Category.tags 100 (Except.error "unused")]

/-!
Frame lemmas for the category accessors, and lookup lemmas for the `Map`
embedding.
-/

@[simp]
lemma cat_setStat (s : MetadataCache) (c : Category) (st : CatStats)
    (c' : Category) : (s.setStat c st).cat c' = s.cat c' := by
  cases c <;> cases c' <;> rfl

@[simp]
lemma ttl_setStat (s : MetadataCache) (c : Category) (st : CatStats) :
    (s.setStat c st).CACHE_TTL = s.CACHE_TTL := by
  cases c <;> rfl

@[simp]
lemma ttl_setCat (s : MetadataCache) (c : Category) (x : CatState) :
    (s.setCat c x).CACHE_TTL = s.CACHE_TTL := by
  cases c <;> rfl

@[simp]
lemma statFor_setCat (s : MetadataCache) (c : Category) (x : CatState)
    (c' : Category) : (s.setCat c x).statFor c' = s.statFor c' := by
  cases c <;> cases c' <;> rfl

@[simp]
lemma statFor_setStat_self (s : MetadataCache) (c : Category) (st : CatStats) :
    (s.setStat c st).statFor c = st := by
  cases c <;> rfl

lemma statFor_setStat_ne (s : MetadataCache) (c : Category) (st : CatStats)
    (c' : Category) (h : c' ≠ c) :
    (s.setStat c st).statFor c' = s.statFor c' := by
  cases c <;> cases c' <;> simp_all [MetadataCache.setStat, MetadataCache.statFor]

@[simp]
lemma cat_setCat_self (s : MetadataCache) (c : Category) (x : CatState) :
    (s.setCat c x).cat c = x := by
  cases c <;> rfl

lemma cat_setCat_ne (s : MetadataCache) (c : Category) (x : CatState)
    (c' : Category) (h : c' ≠ c) :
    (s.setCat c x).cat c' = s.cat c' := by
  cases c <;> cases c' <;> simp_all [MetadataCache.setCat, MetadataCache.cat]

@[simp]
lemma isCacheValid_setStat (s : MetadataCache) (c : Category) (st : CatStats)
    (c' : Category) (now : Nat) :
    (s.setStat c st).isCacheValid c' now = s.isCacheValid c' now := by
  simp [MetadataCache.isCacheValid]

lemma get_map_replace (m : Entries) (k : Nat) (v : Record)
    (h : m.any (fun p => p.1 == k) = true) :
    entriesGet (m.map (fun p => if p.1 == k then (k, v) else p)) k = some v := by
  induction m with
  | nil => simp at h
  | cons p rest ih =>
    by_cases hp : (p.1 == k) = true
    · simp [entriesGet, List.find?, hp]
    · have hrest : rest.any (fun q => q.1 == k) = true := by
        simp only [List.any_cons, hp, Bool.false_or] at h
        exact h
      have := ih hrest
      simpa [entriesGet, List.find?, hp] using this

lemma get_append_new (m : Entries) (k : Nat) (v : Record)
    (h : m.any (fun p => p.1 == k) = false) :
    entriesGet (m ++ [(k, v)]) k = some v := by
  induction m with
  | nil => simp [entriesGet, List.find?]
  | cons p rest ih =>
    simp only [List.any_cons, Bool.or_eq_false_iff] at h
    have := ih h.2
    simpa [entriesGet, List.find?, h.1] using this

lemma entriesGet_set_self (m : Entries) (k : Nat) (v : Record) :
    entriesGet (entriesSet m k v) k = some v := by
  rcases Bool.eq_false_or_eq_true (m.any (fun p => p.1 == k)) with h | h
  · simpa [entriesSet, h] using get_map_replace m k v h
  · simpa [entriesSet, h] using get_append_new m k v h

lemma find?_map_replace_ne (m : Entries) (k k' : Nat) (v : Record)
    (h : k' ≠ k) :
    List.find? (fun p => p.1 == k')
        (m.map (fun p => if p.1 == k then (k, v) else p))
      = List.find? (fun p => p.1 == k') m := by
  have hk : (k == k') = false := by
    simpa using fun e => h e.symm
  induction m with
  | nil => rfl
  | cons p rest ih =>
    by_cases hp : (p.1 == k) = true
    · have hpk : p.1 = k := by simpa using hp
      have hpne : (p.1 == k') = false := by
        simpa [hpk] using fun e => h e.symm
      simpa [List.find?, hp, hk, hpne] using ih
    · by_cases hp' : (p.1 == k') = true
      · simp [List.find?, hp, hp']
      · simpa [List.find?, hp, hp'] using ih

lemma entriesGet_set_ne (m : Entries) (k : Nat) (v : Record) (k' : Nat)
    (h : k' ≠ k) :
    entriesGet (entriesSet m k v) k' = entriesGet m k' := by
  have hk : (k == k') = false := by
    simpa using fun e => h e.symm
  rcases Bool.eq_false_or_eq_true (m.any (fun p => p.1 == k)) with ha | ha
  · show entriesGet (entriesSet m k v) k' = entriesGet m k'
    unfold entriesSet entriesGet
    rw [ha, if_pos rfl, find?_map_replace_ne m k k' v h]
  · simp [entriesSet, ha, entriesGet, List.find?_append, hk]

/-!
Operation-level lemmas shared by the claim proofs.
-/

lemma ensureHit_iff (s : MetadataCache) (c : Category) (now : Nat) :
    ensureHit s c now = true ↔
      (s.isCacheValid c now = true ∧ (s.cat c).entries ≠ []) := by
  simp [ensureHit, entriesSize, List.length_pos]

lemma ensureHit_setStat (s : MetadataCache) (c : Category) (st : CatStats)
    (c' : Category) (now : Nat) :
    ensureHit (s.setStat c st) c' now = ensureHit s c' now := by
  simp [ensureHit]

lemma ensure_run_hit (s : MetadataCache) (c : Category) (now : Nat)
    (f : Except String (List Record)) (h : ensureHit s c now = true) :
    ensureRun s c now f =
      { out := Except.ok (entriesValues (s.cat c).entries)
        state := s.setStat c
          { s.statFor c with hits := (s.statFor c).hits + 1 }
        fetchCalls := 0 } := by
  simp [ensureRun, h]

lemma ensure_run_miss (s : MetadataCache) (c : Category) (now : Nat)
    (f : Except String (List Record)) (h : ensureHit s c now = false) :
    ensureRun s c now f =
      refreshRun
        (s.setStat c { s.statFor c with misses := (s.statFor c).misses + 1 })
        c now f := by
  cases f with
  | ok recs => simp [ensureRun, h, refreshRun]
  | error e => simp [ensureRun, h, refreshRun]

lemma refresh_statFor_self (s : MetadataCache) (c : Category) (now : Nat)
    (f : Except String (List Record)) :
    ((refreshRun s c now f).state).statFor c =
      { s.statFor c with refreshes := (s.statFor c).refreshes + 1 } := by
  cases f <;> simp [refreshRun]

lemma refresh_statFor_ne (s : MetadataCache) (c : Category) (now : Nat)
    (f : Except String (List Record)) (c' : Category) (h : c' ≠ c) :
    ((refreshRun s c now f).state).statFor c' = s.statFor c' := by
  cases f <;> simp [refreshRun, statFor_setStat_ne _ _ _ _ h]

lemma refresh_hits (s : MetadataCache) (c : Category) (now : Nat)
    (f : Except String (List Record)) (c' : Category) :
    (((refreshRun s c now f).state).statFor c').hits = (s.statFor c').hits := by
  by_cases h : c' = c
  · subst h; rw [refresh_statFor_self]
  · rw [refresh_statFor_ne _ _ _ _ _ h]

lemma refresh_misses (s : MetadataCache) (c : Category) (now : Nat)
    (f : Except String (List Record)) (c' : Category) :
    (((refreshRun s c now f).state).statFor c').misses
      = (s.statFor c').misses := by
  by_cases h : c' = c
  · subst h; rw [refresh_statFor_self]
  · rw [refresh_statFor_ne _ _ _ _ _ h]

lemma refresh_cat_self_ok (s : MetadataCache) (c : Category) (now : Nat)
    (R : List Record) :
    ((refreshRun s c now (Except.ok R)).state).cat c =
      { entries := R.foldl (fun m r => entriesSet m r.id r) []
        lastUpdate := some now } := by
  simp [refreshRun]

lemma refresh_cat_self_err (s : MetadataCache) (c : Category) (now : Nat)
    (e : String) :
    ((refreshRun s c now (Except.error e)).state).cat c = s.cat c := by
  simp [refreshRun]

lemma refresh_cat_ne (s : MetadataCache) (c : Category) (now : Nat)
    (f : Except String (List Record)) (c' : Category) (h : c' ≠ c) :
    ((refreshRun s c now f).state).cat c' = s.cat c' := by
  cases f <;> simp [refreshRun, cat_setCat_ne _ _ _ _ h]

lemma refresh_ttl (s : MetadataCache) (c : Category) (now : Nat)
    (f : Except String (List Record)) :
    ((refreshRun s c now f).state).CACHE_TTL = s.CACHE_TTL := by
  cases f <;> simp [refreshRun]

@[simp]
lemma clearAll_statFor (s : MetadataCache) (c : Category) :
    (clearAllRun s).statFor c = s.statFor c := by
  cases c <;> rfl

@[simp]
lemma clearAll_cat (s : MetadataCache) (c : Category) :
    (clearAllRun s).cat c = { entries := [], lastUpdate := none } := by
  cases c <;> rfl

@[simp]
lemma addOne_statFor (s : MetadataCache) (c : Category) (r : Record)
    (c' : Category) : (addOneRun s c r).statFor c' = s.statFor c' := by
  simp [addOneRun]

@[simp]
lemma resetStats_cat (s : MetadataCache) (c : Category) :
    (resetStatsRun s).cat c = s.cat c := by
  cases c <;> rfl

@[simp]
lemma flag_setFlag_self (h : Hist) (c : Category) (b : Bool) :
    (h.setFlag c b).flag c = b := by
  cases c <;> rfl

lemma flag_setFlag_ne (h : Hist) (c : Category) (b : Bool) (c' : Category)
    (hne : c' ≠ c) : (h.setFlag c b).flag c' = h.flag c' := by
  cases c <;> cases c' <;> simp_all [Hist.setFlag, Hist.flag]

lemma foldl_set_disjoint (R : List Record) (acc : Entries)
    (hd : ∀ r ∈ R, acc.any (fun p => p.1 == r.id) = false)
    (hnd : (R.map Record.id).Nodup) :
    R.foldl (fun m r => entriesSet m r.id r) acc
      = acc ++ R.map (fun r => (r.id, r)) := by
  induction R generalizing acc with
  | nil => simp
  | cons r rest ih =>
    have h0 : acc.any (fun p => p.1 == r.id) = false :=
      hd r (List.mem_cons_self _ _)
    have hset : entriesSet acc r.id r = acc ++ [(r.id, r)] := by
      simp [entriesSet, h0]
    have hd' : ∀ r' ∈ rest,
        (acc ++ [(r.id, r)]).any (fun p => p.1 == r'.id) = false := by
      intro r' hr'
      have hnd2 : (Record.id r :: rest.map Record.id).Nodup := by
        rw [List.map_cons] at hnd; exact hnd
      have hid : r.id ≠ r'.id := by
        have hnotin : r.id ∉ rest.map Record.id := (List.nodup_cons.mp hnd2).1
        intro he
        exact hnotin (he ▸ List.mem_map_of_mem Record.id hr')
      have h1 : acc.any (fun p => p.1 == r'.id) = false :=
        hd r' (List.mem_cons_of_mem _ hr')
      simp [List.any_append, h1, hid]
    have hnd' : (rest.map Record.id).Nodup := by
      rw [List.map_cons] at hnd
      exact (List.nodup_cons.mp hnd).2
    calc (r :: rest).foldl (fun m q => entriesSet m q.id q) acc
        = rest.foldl (fun m q => entriesSet m q.id q) (acc ++ [(r.id, r)]) := by
          simp [List.foldl_cons, hset]
      _ = (acc ++ [(r.id, r)]) ++ rest.map (fun q => (q.id, q)) :=
          ih (acc ++ [(r.id, r)]) hd' hnd'
      _ = acc ++ (r :: rest).map (fun q => (q.id, q)) := by
          simp

lemma build_eq_map (R : List Record) (hnd : (R.map Record.id).Nodup) :
    R.foldl (fun m r => entriesSet m r.id r) []
      = R.map (fun r => (r.id, r)) := by
  simpa using foldl_set_disjoint R [] (by simp) hnd

lemma entriesGet_map_pair (R : List Record) (k : Nat) :
    entriesGet (R.map (fun r => (r.id, r))) k
      = R.find? (fun r => r.id == k) := by
  induction R with
  | nil => rfl
  | cons r rest ih =>
    by_cases hr : (r.id == k) = true
    · simp [entriesGet, List.find?, hr]
    · simpa [entriesGet, List.find?, hr] using ih

lemma entriesValues_map_pair (R : List Record) :
    entriesValues (R.map (fun r => (r.id, r))) = R := by
  induction R with
  | nil => rfl
  | cons r rest ih => simpa [entriesValues] using ih

lemma ensureHit_false_zero_ttl (s : MetadataCache) (c : Category) (now : Nat)
    (h0 : s.CACHE_TTL = 0)
    (hle : ∀ u, (s.cat c).lastUpdate = some u → u ≤ now) :
    ensureHit s c now = false := by
  unfold ensureHit MetadataCache.isCacheValid isValidAt
  cases hu : (s.cat c).lastUpdate with
  | none => simp
  | some u =>
    have h1 : ¬((now : Int) - (u : Int) < (s.CACHE_TTL : Int)) := by
      have := hle u hu
      rw [h0]
      push_cast
      omega
    simp [h1]

/-- Claim C1: for every category, an `ensure` call in a state where the
category is TTL-valid and has non-empty entries increments exactly the hit
counter, returns the current snapshot, and issues no upstream call; in every
other state it increments exactly the miss counter and behaves as
`refresh(category, upstream)` run on that miss-counted state, returning the
refreshed snapshot (or propagating its error). -/
theorem claim_C1_ensure_hit_or_miss (s : MetadataCache) (c : Category)
    (now : Nat) (fetch : Except String (List Record)) :
    (s.isCacheValid c now = true ∧ (s.cat c).entries ≠ [] →
      ensureRun s c now fetch =
        { out := Except.ok (entriesValues (s.cat c).entries)
          state := s.setStat c
            { s.statFor c with hits := (s.statFor c).hits + 1 }
          fetchCalls := 0 })
    ∧ (¬(s.isCacheValid c now = true ∧ (s.cat c).entries ≠ []) →
      ensureRun s c now fetch =
        refreshRun
          (s.setStat c { s.statFor c with misses := (s.statFor c).misses + 1 })
          c now fetch) := by
  constructor
  · intro h
    exact ensure_run_hit s c now fetch ((ensureHit_iff s c now).mpr h)
  · intro h
    have hb : ensureHit s c now = false := by
      rcases Bool.eq_false_or_eq_true (ensureHit s c now) with hb | hb
      · exact absurd ((ensureHit_iff s c now).mp hb) h
      · exact hb
    exact ensure_run_miss s c now fetch hb

/-- Witness for C1 at concrete inputs: a hit state (refreshed at 0, queried
at 500 with TTL 1000) and a miss state (the fresh cache). -/
theorem claim_C1_witness :
    (({ initCache 1000 with
        tags := { entries := [(1, { id := 1, name := "a" })]
                  lastUpdate := some 0 } } : MetadataCache).isCacheValid
          Category.tags 500 = true ∧
      (({ initCache 1000 with
          tags := { entries := [(1, { id := 1, name := "a" })]
                    lastUpdate := some 0 } } : MetadataCache).cat
            Category.tags).entries ≠ [])
    ∧ ensureRun
        ({ initCache 1000 with
           tags := { entries := [(1, { id := 1, name := "a" })]
                     lastUpdate := some 0 } } : MetadataCache)
        Category.tags 500 (Except.error "down") =
      { out := Except.ok (entriesValues
          ((({ initCache 1000 with
               tags := { entries := [(1, { id := 1, name := "a" })]
                         lastUpdate := some 0 } } : MetadataCache).cat
                 Category.tags)).entries)
        state := ({ initCache 1000 with
           tags := { entries := [(1, { id := 1, name := "a" })]
                     lastUpdate := some 0 } } : MetadataCache).setStat
          Category.tags
          { (({ initCache 1000 with
              tags := { entries := [(1, { id := 1, name := "a" })]
                        lastUpdate := some 0 } } : MetadataCache).statFor
                Category.tags) with
            hits := (({ initCache 1000 with
              tags := { entries := [(1, { id := 1, name := "a" })]
                        lastUpdate := some 0 } } : MetadataCache).statFor
                Category.tags).hits + 1 }
        fetchCalls := 0 }
    ∧ ensureRun (initCache 1000) Category.tags 0
        (Except.ok [{ id := 1, name := "a" }]) =
      refreshRun
        ((initCache 1000).setStat Category.tags
          { (initCache 1000).statFor Category.tags with
            misses := ((initCache 1000).statFor Category.tags).misses + 1 })
        Category.tags 0 (Except.ok [{ id := 1, name := "a" }]) :=
  ⟨⟨by decide, by decide⟩,
    (claim_C1_ensure_hit_or_miss _ Category.tags 500 (Except.error "down")).1
      ⟨by decide, by decide⟩,
    (claim_C1_ensure_hit_or_miss (initCache 1000) Category.tags 0
        (Except.ok [{ id := 1, name := "a" }])).2
      (by decide)⟩

/-- Claim C2: the TTL check is a pure decision — false when `lastUpdate` is
absent, otherwise true iff `now - lastUpdate < ttl` (JS number arithmetic,
here `Int`); in particular with `ttl = 0` it is false whenever
`now ≥ lastUpdate`, so with `ttl = 0` two consecutive `ensure` calls (at
non-decreasing times) each take the miss path and each trigger a refresh. -/
theorem claim_C2_ttl_decision :
    (∀ ttl now : Nat, isValidAt none ttl now = false)
    ∧ (∀ t ttl now : Nat,
        isValidAt (some t) ttl now = true ↔
          (now : Int) - (t : Int) < (ttl : Int))
    ∧ (∀ t now : Nat, t ≤ now → isValidAt (some t) 0 now = false)
    ∧ (∀ (s : MetadataCache) (c : Category) (t1 t2 : Nat)
        (f1 f2 : Except String (List Record)),
        s.CACHE_TTL = 0 →
        (∀ u, (s.cat c).lastUpdate = some u → u ≤ t1) →
        t1 ≤ t2 →
        ensureHit s c t1 = false ∧
        ensureHit (ensureRun s c t1 f1).state c t2 = false ∧
        (((ensureRun (ensureRun s c t1 f1).state c t2 f2).state).statFor
            c).refreshes = (s.statFor c).refreshes + 2) := by
  refine ⟨fun ttl now => rfl, fun t ttl now => by simp [isValidAt], ?_, ?_⟩
  · intro t now ht
    simp only [isValidAt, decide_eq_false_iff_not]
    push_cast
    omega
  · intro s c t1 t2 f1 f2 h0 hle h12
    have hA : ensureHit s c t1 = false := ensureHit_false_zero_ttl s c t1 h0 hle
    have hs1 : (ensureRun s c t1 f1).state =
        (refreshRun
          (s.setStat c
            { s.statFor c with misses := (s.statFor c).misses + 1 })
          c t1 f1).state := by
      rw [ensure_run_miss s c t1 f1 hA]
    have httl1 : ((ensureRun s c t1 f1).state).CACHE_TTL = 0 := by
      rw [hs1, refresh_ttl]; simpa using h0
    have hle1 : ∀ u, (((ensureRun s c t1 f1).state).cat c).lastUpdate = some u →
        u ≤ t2 := by
      intro u hu
      rw [hs1] at hu
      cases f1 with
      | ok R =>
        rw [refresh_cat_self_ok] at hu
        simp at hu
        omega
      | error e =>
        rw [refresh_cat_self_err] at hu
        simp at hu
        exact le_trans (hle u hu) h12
    have hB : ensureHit (ensureRun s c t1 f1).state c t2 = false :=
      ensureHit_false_zero_ttl _ c t2 httl1 hle1
    refine ⟨hA, hB, ?_⟩
    rw [ensure_run_miss _ c t2 f2 hB, refresh_statFor_self]
    simp only [statFor_setStat_self]
    rw [hs1, refresh_statFor_self]
    simp

/-- Witness for C2: with TTL 0, two consecutive `ensure` calls on the fresh
cache at times 5 and 9 both miss and leave the refresh counter at 2. -/
theorem claim_C2_witness :
    ((initCache 0).CACHE_TTL = 0 ∧ (5 : Nat) ≤ 9)
    ∧ (ensureHit (initCache 0) Category.tags 5 = false ∧
       ensureHit
         (ensureRun (initCache 0) Category.tags 5
           (Except.ok [{ id := 1, name := "a" }])).state Category.tags 9
         = false ∧
       (((ensureRun
           (ensureRun (initCache 0) Category.tags 5
             (Except.ok [{ id := 1, name := "a" }])).state
           Category.tags 9
           (Except.ok [{ id := 1, name := "a" }])).state).statFor
            Category.tags).refreshes
         = ((initCache 0).statFor Category.tags).refreshes + 2) :=
  ⟨⟨rfl, by decide⟩,
    claim_C2_ttl_decision.2.2.2 (initCache 0) Category.tags 5 9
      (Except.ok [{ id := 1, name := "a" }])
      (Except.ok [{ id := 1, name := "a" }])
      rfl (fun u hu => Option.noConfusion hu) (by decide)⟩

/-- Claim C4: when the upstream fetch inside a refresh fails, the category
state is left unmodified — entries and `lastUpdate` are exactly as before,
for the refreshed category and the others alike — and the error propagates
out of `refresh` and out of an `ensure` whose miss triggered it. (Only the
refresh-attempt counter moves; see C10.) -/
theorem claim_C4_refresh_failure (s : MetadataCache) (c : Category)
    (now : Nat) (e : String) :
    refreshRun s c now (Except.error e) =
      { out := Except.error e
        state := s.setStat c
          { s.statFor c with refreshes := (s.statFor c).refreshes + 1 }
        fetchCalls := 1 }
    ∧ (∀ c', ((refreshRun s c now (Except.error e)).state).cat c' = s.cat c')
    ∧ (((refreshRun s c now (Except.error e)).state).cat c).entries
        = (s.cat c).entries
    ∧ (((refreshRun s c now (Except.error e)).state).cat c).lastUpdate
        = (s.cat c).lastUpdate
    ∧ (ensureHit s c now = false →
        (ensureRun s c now (Except.error e)).out = Except.error e) := by
  refine ⟨rfl, ?_, ?_, ?_, ?_⟩
  · intro c'; simp [refreshRun]
  · simp [refreshRun]
  · simp [refreshRun]
  · intro h
    rw [ensure_run_miss s c now (Except.error e) h]
    simp [refreshRun]

/-- Witness for C4 on the fresh cache, whose first `ensure` misses and hits
the failing upstream. -/
theorem claim_C4_witness :
    (ensureHit (initCache 1000) Category.tags 0 = false)
    ∧ (ensureRun (initCache 1000) Category.tags 0
        (Except.error "boom")).out = Except.error "boom" :=
  ⟨by decide,
    (claim_C4_refresh_failure (initCache 1000) Category.tags 0 "boom").2.2.2.2
      (by decide)⟩

/-- Claim C6: `addOne(category, record)` inserts or replaces the single entry
keyed by the record's id and changes nothing else — `lastUpdate` keeps its
prior value, all counters of all categories are untouched, the other
categories are untouched, the new record is immediately retrievable, and
every other key reads as before. -/
theorem claim_C6_addOne (s : MetadataCache) (c : Category) (r : Record) :
    ((addOneRun s c r).cat c).lastUpdate = (s.cat c).lastUpdate
    ∧ (∀ c', (addOneRun s c r).statFor c' = s.statFor c')
    ∧ (∀ c', c' ≠ c → (addOneRun s c r).cat c' = s.cat c')
    ∧ entriesGet ((addOneRun s c r).cat c).entries r.id = some r
    ∧ (∀ k, k ≠ r.id →
        entriesGet ((addOneRun s c r).cat c).entries k
          = entriesGet (s.cat c).entries k)
    ∧ ((addOneRun s c r).cat c).entries = entriesSet (s.cat c).entries r.id r := by
  refine ⟨by simp [addOneRun], fun c' => by simp, ?_, ?_, ?_, by simp [addOneRun]⟩
  · intro c' h
    simp [addOneRun, cat_setCat_ne _ _ _ _ h]
  · simp [addOneRun, entriesGet_set_self]
  · intro k hk
    simp [addOneRun, entriesGet_set_ne _ _ _ _ hk]

/-- Witness for C6: adding tag 1 to a cache refreshed at time 0 leaves
`lastUpdate` at 0, and key 2 reads as before. -/
theorem claim_C6_witness :
    (((addOneRun
        ({ initCache 1000 with
           tags := { entries := [(2, { id := 2, name := "b" })]
                     lastUpdate := some 0 } } : MetadataCache)
        Category.tags { id := 1, name := "a" }).cat Category.tags).lastUpdate
      = some 0)
    ∧ ((2 : Nat) ≠ (1 : Nat))
    ∧ entriesGet ((addOneRun
        ({ initCache 1000 with
           tags := { entries := [(2, { id := 2, name := "b" })]
                     lastUpdate := some 0 } } : MetadataCache)
        Category.tags { id := 1, name := "a" }).cat Category.tags).entries 2
      = entriesGet
          ((({ initCache 1000 with
              tags := { entries := [(2, { id := 2, name := "b" })]
                        lastUpdate := some 0 } } : MetadataCache)).cat
            Category.tags).entries 2 :=
  ⟨(claim_C6_addOne
      ({ initCache 1000 with
         tags := { entries := [(2, { id := 2, name := "b" })]
                   lastUpdate := some 0 } } : MetadataCache)
      Category.tags { id := 1, name := "a" }).1,
   by decide,
   (claim_C6_addOne
      ({ initCache 1000 with
         tags := { entries := [(2, { id := 2, name := "b" })]
                   lastUpdate := some 0 } } : MetadataCache)
      Category.tags { id := 1, name := "a" }).2.2.2.2.1 2 (by decide)⟩

/-- Claim C7: `clearAll()` unconditionally empties all three categories,
resets all `lastUpdate` to absent, touches no counters and no upstream, and
forces the next `ensure` on every category to miss (its miss counter moves)
regardless of time. -/
theorem claim_C7_clearAll (s : MetadataCache) :
    (∀ c, ((clearAllRun s).cat c).entries = []
      ∧ ((clearAllRun s).cat c).lastUpdate = none)
    ∧ (∀ c, (clearAllRun s).statFor c = s.statFor c)
    ∧ (∀ c now, ensureHit (clearAllRun s) c now = false)
    ∧ (∀ c now f,
        (((ensureRun (clearAllRun s) c now f).state).statFor c).misses
          = (s.statFor c).misses + 1) := by
  have hmiss : ∀ c now, ensureHit (clearAllRun s) c now = false := by
    intro c now
    simp [ensureHit, MetadataCache.isCacheValid, isValidAt]
  refine ⟨fun c => ⟨by simp, by simp⟩, fun c => by simp, hmiss, ?_⟩
  intro c now f
  rw [ensure_run_miss _ c now f (hmiss c now)]
  rw [refresh_statFor_self]
  simp

/-- Claim C10: the refresh counter counts attempts — it is incremented before
the upstream call is awaited, so it moves by exactly 1 whether the fetch
succeeds or fails; on a failed refresh it is the only piece of state that
changes, and `getStats` reports the incremented value. -/
theorem claim_C10_refresh_attempts (s : MetadataCache) (c : Category)
    (now : Nat) (f : Except String (List Record)) (e : String) :
    (((refreshRun s c now f).state).statFor c).refreshes
        = (s.statFor c).refreshes + 1
    ∧ (((refreshRun s c now (Except.error e)).state).statFor c).hits
        = (s.statFor c).hits
    ∧ (((refreshRun s c now (Except.error e)).state).statFor c).misses
        = (s.statFor c).misses
    ∧ (∀ c', ((refreshRun s c now (Except.error e)).state).cat c' = s.cat c')
    ∧ (catSnapshot ((refreshRun s c now (Except.error e)).state) c now).refreshes
        = (s.statFor c).refreshes + 1 := by
  refine ⟨?_, ?_, ?_, ?_, ?_⟩
  · rw [refresh_statFor_self]
  · rw [refresh_statFor_self]
  · rw [refresh_statFor_self]
  · intro c'; simp [refreshRun]
  · simp [catSnapshot, refresh_statFor_self]

/-- Claim C3: a successful `refresh(category, upstream)` returning records
`R` (with distinct ids) leaves the category holding exactly the records of
`R` keyed by id — clear-then-repopulate, not merge — sets `lastUpdate` to
now, erases every previously cached key absent from `R`, and returns `R`. -/
theorem claim_C3_refresh_replaces (s : MetadataCache) (c : Category)
    (now : Nat) (R : List Record) (hnd : (R.map Record.id).Nodup) :
    ((refreshRun s c now (Except.ok R)).state).cat c
        = { entries := R.map (fun rec => (rec.id, rec)), lastUpdate := some now }
    ∧ (∀ k, entriesGet (((refreshRun s c now (Except.ok R)).state).cat c).entries k
        = R.find? (fun rec => rec.id == k))
    ∧ (∀ k, (∀ rec ∈ R, rec.id ≠ k) →
        entriesGet (((refreshRun s c now (Except.ok R)).state).cat c).entries k
          = none)
    ∧ (refreshRun s c now (Except.ok R)).out = Except.ok R := by
  have hcat := refresh_cat_self_ok s c now R
  have hb := build_eq_map R hnd
  have hget : ∀ k,
      entriesGet (((refreshRun s c now (Except.ok R)).state).cat c).entries k
        = R.find? (fun rec => rec.id == k) := by
    intro k
    rw [hcat]
    show entriesGet (R.foldl (fun m r => entriesSet m r.id r) []) k = _
    rw [hb, entriesGet_map_pair]
  refine ⟨?_, hget, ?_, ?_⟩
  · rw [hcat, hb]
  · intro k hk
    rw [hget k]
    apply List.find?_eq_none.mpr
    intro rec hrec
    simpa using hk rec hrec
  · show Except.ok (entriesValues (R.foldl (fun m r => entriesSet m r.id r) []))
        = Except.ok R
    rw [hb, entriesValues_map_pair]

/-- Witness for C3: refresh with records 1,2,3, then refresh with 2,3,4 — the
cache holds exactly 2,3,4 and record 1 is gone. -/
theorem claim_C3_witness :
    (([{ id := 2, name := "b" }, { id := 3, name := "c" },
       { id := 4, name := "d" }].map Record.id).Nodup)
    ∧ ((refreshRun
        ((refreshRun (initCache 1000) Category.tags 0
          (Except.ok [{ id := 1, name := "a" }, { id := 2, name := "b" },
            { id := 3, name := "c" }])).state)
        Category.tags 1
        (Except.ok [{ id := 2, name := "b" }, { id := 3, name := "c" },
          { id := 4, name := "d" }])).state).cat Category.tags
      = { entries := [(2, { id := 2, name := "b" }), (3, { id := 3, name := "c" }),
          (4, { id := 4, name := "d" })]
          lastUpdate := some 1 }
    ∧ entriesGet ((((refreshRun
        ((refreshRun (initCache 1000) Category.tags 0
          (Except.ok [{ id := 1, name := "a" }, { id := 2, name := "b" },
            { id := 3, name := "c" }])).state)
        Category.tags 1
        (Except.ok [{ id := 2, name := "b" }, { id := 3, name := "c" },
          { id := 4, name := "d" }])).state).cat Category.tags)).entries 1
      = none :=
  ⟨by decide,
   by
    have h := (claim_C3_refresh_replaces
      ((refreshRun (initCache 1000) Category.tags 0
        (Except.ok [{ id := 1, name := "a" }, { id := 2, name := "b" },
          { id := 3, name := "c" }])).state)
      Category.tags 1
      [{ id := 2, name := "b" }, { id := 3, name := "c" },
        { id := 4, name := "d" }] (by decide)).1
    simpa using h,
   (claim_C3_refresh_replaces
      ((refreshRun (initCache 1000) Category.tags 0
        (Except.ok [{ id := 1, name := "a" }, { id := 2, name := "b" },
          { id := 3, name := "c" }])).state)
      Category.tags 1
      [{ id := 2, name := "b" }, { id := 3, name := "c" },
        { id := 4, name := "d" }] (by decide)).2.2.1 1 (by decide)⟩

lemma ensureRun_eq_phases (s : MetadataCache) (c : Category) (now : Nat)
    (f : Except String (List Record)) :
    ensureRun s c now f =
      match ensurePhase1 s c now with
      | (s1, some v) => { out := Except.ok v, state := s1, fetchCalls := 0 }
      | (s1, none) =>
        { out := (ensurePhase2 s1 c now f).2
          state := (ensurePhase2 s1 c now f).1
          fetchCalls := 1 } := by
  rcases Bool.eq_false_or_eq_true (ensureHit s c now) with hb | hb
  · rw [ensure_run_hit s c now f hb]
    simp [ensurePhase1, hb]
  · rw [ensure_run_miss s c now f hb]
    cases f with
    | ok R => simp [ensurePhase1, hb, ensurePhase2, refreshRun]
    | error e => simp [ensurePhase1, hb, ensurePhase2, refreshRun]

lemma ensurePhase1_fst_hit (s : MetadataCache) (c : Category) (now : Nat) :
    ensureHit (ensurePhase1 s c now).1 c now = ensureHit s c now := by
  rcases Bool.eq_false_or_eq_true (ensureHit s c now) with hb | hb <;>
    simp [ensurePhase1, hb, ensureHit_setStat]

lemma ensurePhase1_snd_miss (s : MetadataCache) (c : Category) (now : Nat)
    (h : ensureHit s c now = false) :
    (ensurePhase1 s c now).2 = none := by
  simp [ensurePhase1, h]

/-- Claim C5 counterexample: `ensureTags` has no per-category in-flight
guard, so two concurrent `ensure` calls that both observe the empty fresh
cache before either upstream fetch settles issue two upstream fetches, not
exactly one as the claim states. -/
theorem claim_C5_counterexample :
    (twoEnsureBothStart (initCache 1800000) Category.tags 0
        (Except.ok [{ id := 1, name := "a" }])
        (Except.ok [{ id := 1, name := "a" }])).2.1 ≠ 1 := by
  decide

/-- Claim C5 amended: N concurrent `ensure` calls that all observe an invalid
or empty cache each trigger their own refresh — for two overlapping calls,
two upstream fetches are issued and each caller returns the snapshot
produced by its own refresh (there is no coalescing guard in the code). -/
theorem claim_C5_amended (s : MetadataCache) (c : Category) (now : Nat)
    (RA RB : List Record) (h : ensureHit s c now = false) :
    (twoEnsureBothStart s c now (Except.ok RA) (Except.ok RB)).2.1 = 2
    ∧ (twoEnsureBothStart s c now (Except.ok RA) (Except.ok RB)).2.2.1
        = Except.ok (entriesValues (RA.foldl (fun m r => entriesSet m r.id r) []))
    ∧ (twoEnsureBothStart s c now (Except.ok RA) (Except.ok RB)).2.2.2
        = Except.ok (entriesValues (RB.foldl (fun m r => entriesSet m r.id r) [])) := by
  rcases hP1 : ensurePhase1 s c now with ⟨s1, r1⟩
  have hr1 : r1 = none := by
    have := ensurePhase1_snd_miss s c now h
    rw [hP1] at this
    exact this
  subst hr1
  have hhit1 : ensureHit s1 c now = false := by
    have := ensurePhase1_fst_hit s c now
    rw [hP1] at this
    exact this.trans h
  rcases hP2 : ensurePhase1 s1 c now with ⟨s2, r2⟩
  have hr2 : r2 = none := by
    have := ensurePhase1_snd_miss s1 c now hhit1
    rw [hP2] at this
    exact this
  subst hr2
  simp [twoEnsureBothStart, hP1, hP2, ensurePhase2]

/-- Witness for C5 amended at the fresh cache: both concurrent calls miss,
two fetches go out, and each returns its own refresh's records. -/
theorem claim_C5_amended_witness :
    (ensureHit (initCache 1800000) Category.tags 0 = false)
    ∧ (twoEnsureBothStart (initCache 1800000) Category.tags 0
        (Except.ok [{ id := 1, name := "a" }])
        (Except.ok [{ id := 2, name := "b" }])).2.1 = 2
    ∧ (twoEnsureBothStart (initCache 1800000) Category.tags 0
        (Except.ok [{ id := 1, name := "a" }])
        (Except.ok [{ id := 2, name := "b" }])).2.2.1
        = Except.ok (entriesValues
            ([({ id := 1, name := "a" } : Record)].foldl
              (fun m r => entriesSet m r.id r) []))
    ∧ (twoEnsureBothStart (initCache 1800000) Category.tags 0
        (Except.ok [{ id := 1, name := "a" }])
        (Except.ok [{ id := 2, name := "b" }])).2.2.2
        = Except.ok (entriesValues
            ([({ id := 2, name := "b" } : Record)].foldl
              (fun m r => entriesSet m r.id r) [])) :=
  ⟨by decide,
   (claim_C5_amended (initCache 1800000) Category.tags 0
      [{ id := 1, name := "a" }] [{ id := 2, name := "b" }] (by decide)).1,
   (claim_C5_amended (initCache 1800000) Category.tags 0
      [{ id := 1, name := "a" }] [{ id := 2, name := "b" }] (by decide)).2.1,
   (claim_C5_amended (initCache 1800000) Category.tags 0
      [{ id := 1, name := "a" }] [{ id := 2, name := "b" }] (by decide)).2.2⟩

lemma ensure_statFor_hits (s : MetadataCache) (c : Category) (now : Nat)
    (f : Except String (List Record)) (c' : Category) :
    (((ensureRun s c now f).state).statFor c').hits
      = (s.statFor c').hits
        + (if c' = c ∧ ensureHit s c now = true then 1 else 0) := by
  rcases Bool.eq_false_or_eq_true (ensureHit s c now) with hb | hb
  · rw [ensure_run_hit s c now f hb]
    by_cases hc : c' = c
    · subst hc; simp [hb]
    · rw [statFor_setStat_ne _ _ _ _ hc]
      simp [hc]
  · rw [ensure_run_miss s c now f hb, refresh_hits]
    by_cases hc : c' = c
    · subst hc; simp [hb]
    · rw [statFor_setStat_ne _ _ _ _ hc]
      simp [hc]

lemma ensure_statFor_misses (s : MetadataCache) (c : Category) (now : Nat)
    (f : Except String (List Record)) (c' : Category) :
    (((ensureRun s c now f).state).statFor c').misses
      = (s.statFor c').misses
        + (if c' = c ∧ ensureHit s c now = false then 1 else 0) := by
  rcases Bool.eq_false_or_eq_true (ensureHit s c now) with hb | hb
  · rw [ensure_run_hit s c now f hb]
    by_cases hc : c' = c
    · subst hc; simp [hb]
    · rw [statFor_setStat_ne _ _ _ _ hc]
      simp [hc]
  · rw [ensure_run_miss s c now f hb, refresh_misses]
    by_cases hc : c' = c
    · subst hc; simp [hb]
    · rw [statFor_setStat_ne _ _ _ _ hc]
      simp [hc]

lemma refreshAll_hits (s : MetadataCache) (now : Nat)
    (ft fc fd : Except String (List Record)) (c' : Category) :
    ((refreshAllState s now ft fc fd).statFor c').hits
      = (s.statFor c').hits := by
  simp [refreshAllState, refresh_hits]

lemma refreshAll_misses (s : MetadataCache) (now : Nat)
    (ft fc fd : Except String (List Record)) (c' : Category) :
    ((refreshAllState s now ft fc fd).statFor c').misses
      = (s.statFor c').misses := by
  simp [refreshAllState, refresh_misses]

lemma totalHitsOf_eq (s : MetadataCache) :
    totalHitsOf s = (s.statFor Category.tags).hits
      + (s.statFor Category.correspondents).hits
      + (s.statFor Category.documentTypes).hits := rfl

lemma totalMissesOf_eq (s : MetadataCache) :
    totalMissesOf s = (s.statFor Category.tags).misses
      + (s.statFor Category.correspondents).misses
      + (s.statFor Category.documentTypes).misses := rfl

lemma totalHits_step (s : MetadataCache) (op : Op) (h : op ≠ Op.resetStats) :
    totalHitsOf (step s op)
      = totalHitsOf s + (if isHitStep s op then 1 else 0) := by
  cases op with
  | ensure c now f =>
    rw [totalHitsOf_eq, totalHitsOf_eq]
    simp only [step]
    rw [ensure_statFor_hits, ensure_statFor_hits, ensure_statFor_hits]
    rcases Bool.eq_false_or_eq_true (ensureHit s c now) with hb | hb <;>
      cases c <;> simp [isHitStep, hb] <;> omega
  | refresh c now f =>
    rw [totalHitsOf_eq, totalHitsOf_eq]
    simp only [step]
    rw [refresh_hits, refresh_hits, refresh_hits]
    simp [isHitStep]
  | refreshAll now ft fc fd =>
    rw [totalHitsOf_eq, totalHitsOf_eq]
    simp only [step]
    rw [refreshAll_hits, refreshAll_hits, refreshAll_hits]
    simp [isHitStep]
  | clearAll => simp [step, isHitStep, totalHitsOf, clearAllRun]
  | addOne c r =>
    rw [totalHitsOf_eq, totalHitsOf_eq]
    simp only [step]
    rw [addOne_statFor, addOne_statFor, addOne_statFor]
    simp [isHitStep]
  | resetStats => exact absurd rfl h

lemma totalMisses_step (s : MetadataCache) (op : Op) (h : op ≠ Op.resetStats) :
    totalMissesOf (step s op)
      = totalMissesOf s + (if isMissStep s op then 1 else 0) := by
  cases op with
  | ensure c now f =>
    rw [totalMissesOf_eq, totalMissesOf_eq]
    simp only [step]
    rw [ensure_statFor_misses, ensure_statFor_misses, ensure_statFor_misses]
    rcases Bool.eq_false_or_eq_true (ensureHit s c now) with hb | hb <;>
      cases c <;> simp [isMissStep, hb] <;> omega
  | refresh c now f =>
    rw [totalMissesOf_eq, totalMissesOf_eq]
    simp only [step]
    rw [refresh_misses, refresh_misses, refresh_misses]
    simp [isMissStep]
  | refreshAll now ft fc fd =>
    rw [totalMissesOf_eq, totalMissesOf_eq]
    simp only [step]
    rw [refreshAll_misses, refreshAll_misses, refreshAll_misses]
    simp [isMissStep]
  | clearAll => simp [step, isMissStep, totalMissesOf, clearAllRun]
  | addOne c r =>
    rw [totalMissesOf_eq, totalMissesOf_eq]
    simp only [step]
    rw [addOne_statFor, addOne_statFor, addOne_statFor]
    simp [isMissStep]
  | resetStats => exact absurd rfl h

lemma totalHits_runOps (ops : List Op) :
    ∀ s : MetadataCache, Op.resetStats ∉ ops →
      totalHitsOf (runOps s ops) = totalHitsOf s + countHits s ops := by
  induction ops with
  | nil => intro s _; simp [runOps, countHits]
  | cons op rest ih =>
    intro s h
    have hop : op ≠ Op.resetStats := fun he => h (he ▸ List.mem_cons_self _ _)
    have hrest : Op.resetStats ∉ rest := fun hm => h (List.mem_cons_of_mem _ hm)
    show totalHitsOf (runOps (step s op) rest)
      = totalHitsOf s + ((if isHitStep s op then 1 else 0) + countHits (step s op) rest)
    rw [ih _ hrest, totalHits_step s op hop]
    omega

lemma totalMisses_runOps (ops : List Op) :
    ∀ s : MetadataCache, Op.resetStats ∉ ops →
      totalMissesOf (runOps s ops) = totalMissesOf s + countMisses s ops := by
  induction ops with
  | nil => intro s _; simp [runOps, countMisses]
  | cons op rest ih =>
    intro s h
    have hop : op ≠ Op.resetStats := fun he => h (he ▸ List.mem_cons_self _ _)
    have hrest : Op.resetStats ∉ rest := fun hm => h (List.mem_cons_of_mem _ hm)
    show totalMissesOf (runOps (step s op) rest)
      = totalMissesOf s + ((if isMissStep s op then 1 else 0) + countMisses (step s op) rest)
    rw [ih _ hrest, totalMisses_step s op hop]
    omega

/-- Claim C8: for every sequence of public operations from the fresh cache
(with no `resetStats` in it) producing `H` hit-path and `M` miss-path
`ensure`s, `getStats` reports `totalHits = H`, `totalMisses = M`,
`totalRequests = H + M`, and `hitRate = H / (H + M) * 100` (exactly, as a
rational; the JS code then formats it with `toFixed(2)`), and the `getStats`
call itself leaves the state unchanged. -/
theorem claim_C8_stats (ttl : Nat) (ops : List Op) (now : Nat)
    (h : Op.resetStats ∉ ops) :
    (getStats (runOps (initCache ttl) ops) now).overall.totalHits
        = countHits (initCache ttl) ops
    ∧ (getStats (runOps (initCache ttl) ops) now).overall.totalMisses
        = countMisses (initCache ttl) ops
    ∧ (getStats (runOps (initCache ttl) ops) now).overall.totalRequests
        = countHits (initCache ttl) ops + countMisses (initCache ttl) ops
    ∧ (getStats (runOps (initCache ttl) ops) now).overall.hitRate
        = (if 0 < countHits (initCache ttl) ops + countMisses (initCache ttl) ops
           then (countHits (initCache ttl) ops : ℚ)
              / ((countHits (initCache ttl) ops
                  + countMisses (initCache ttl) ops : Nat) : ℚ) * 100
           else 0)
    ∧ getStatsRun (runOps (initCache ttl) ops) now
        = (getStats (runOps (initCache ttl) ops) now,
           runOps (initCache ttl) ops) := by
  have hH : totalHitsOf (runOps (initCache ttl) ops)
      = countHits (initCache ttl) ops := by
    have := totalHits_runOps ops (initCache ttl) h
    simpa [totalHitsOf, initCache] using this
  have hM : totalMissesOf (runOps (initCache ttl) ops)
      = countMisses (initCache ttl) ops := by
    have := totalMisses_runOps ops (initCache ttl) h
    simpa [totalMissesOf, initCache] using this
  refine ⟨hH, hM, ?_, ?_, rfl⟩
  · show totalHitsOf (runOps (initCache ttl) ops)
      + totalMissesOf (runOps (initCache ttl) ops) = _
    rw [hH, hM]
  · show (if 0 < totalHitsOf (runOps (initCache ttl) ops)
        + totalMissesOf (runOps (initCache ttl) ops)
      then (totalHitsOf (runOps (initCache ttl) ops) : ℚ)
        / ((totalHitsOf (runOps (initCache ttl) ops)
            + totalMissesOf (runOps (initCache ttl) ops) : Nat) : ℚ) * 100
      else 0) = _
    rw [hH, hM]

/-- Witness for C8: one miss then one hit on tags with TTL 1000 gives
`totalHits = 1`, `totalMisses = 1`, `hitRate = 50`. -/
theorem claim_C8_witness :
    (Op.resetStats ∉ opsC8)
    ∧ (getStats (runOps (initCache 1000) opsC8) 200).overall.totalHits
        = countHits (initCache 1000) opsC8
    ∧ (getStats (runOps (initCache 1000) opsC8) 200).overall.totalMisses
        = countMisses (initCache 1000) opsC8
    ∧ (getStats (runOps (initCache 1000) opsC8) 200).overall.totalRequests
        = countHits (initCache 1000) opsC8 + countMisses (initCache 1000) opsC8
    ∧ (getStats (runOps (initCache 1000) opsC8) 200).overall.hitRate
        = (if 0 < countHits (initCache 1000) opsC8
              + countMisses (initCache 1000) opsC8
           then (countHits (initCache 1000) opsC8 : ℚ)
              / ((countHits (initCache 1000) opsC8
                  + countMisses (initCache 1000) opsC8 : Nat) : ℚ) * 100
           else 0) :=
  ⟨by decide,
   (claim_C8_stats 1000 opsC8 200 (by decide)).1,
   (claim_C8_stats 1000 opsC8 200 (by decide)).2.1,
   (claim_C8_stats 1000 opsC8 200 (by decide)).2.2.1,
   (claim_C8_stats 1000 opsC8 200 (by decide)).2.2.2.1⟩

lemma refresh_cat_error (s : MetadataCache) (c : Category) (now : Nat)
    (e : String) (c' : Category) :
    ((refreshRun s c now (Except.error e)).state).cat c' = s.cat c' := by
  simp [refreshRun]

lemma hstep_inv (p : MetadataCache × Hist) (op : Op)
    (h : ∀ c, ((p.1.cat c).lastUpdate = none ↔ p.2.flag c = false)) :
    ∀ c, (((hstep p op).1.cat c).lastUpdate = none
      ↔ (hstep p op).2.flag c = false) := by
  obtain ⟨s, hist⟩ := p
  intro c
  cases op with
  | ensure c0 now f =>
    simp only [hstep, step, hstepHist]
    rcases Bool.eq_false_or_eq_true (ensureHit s c0 now) with hb | hb
    · rw [ensure_run_hit s c0 now f hb]
      simpa [hb] using h c
    · rw [ensure_run_miss s c0 now f hb]
      cases f with
      | ok R =>
        by_cases hc : c = c0
        · subst hc
          rw [refresh_cat_self_ok]
          simp [hb]
        · rw [refresh_cat_ne _ _ _ _ _ hc]
          simpa [hb, flag_setFlag_ne _ _ _ _ hc] using h c
      | error e =>
        rw [refresh_cat_error]
        simpa [hb] using h c
  | refresh c0 now f =>
    simp only [hstep, step, hstepHist]
    cases f with
    | ok R =>
      by_cases hc : c = c0
      · subst hc
        rw [refresh_cat_self_ok]
        simp
      · rw [refresh_cat_ne _ _ _ _ _ hc]
        simpa [flag_setFlag_ne _ _ _ _ hc] using h c
    | error e =>
      rw [refresh_cat_error]
      simpa using h c
  | refreshAll now ft fc fd =>
    simp only [hstep, step, hstepHist]
    cases c with
    | tags =>
      have e1 : ((refreshAllState s now ft fc fd).cat Category.tags)
          = ((refreshRun s Category.tags now ft).state).cat Category.tags := by
        unfold refreshAllState
        rw [refresh_cat_ne _ Category.documentTypes now fd Category.tags
              (by decide),
            refresh_cat_ne _ Category.correspondents now fc Category.tags
              (by decide)]
      rw [e1]
      cases ft with
      | ok R =>
        rw [refresh_cat_self_ok]
        cases fc <;> cases fd <;> simp [Hist.setFlag, Hist.flag]
      | error e =>
        rw [refresh_cat_self_err]
        have := h Category.tags
        cases fc <;> cases fd <;>
          simpa [Hist.setFlag, Hist.flag] using this
    | correspondents =>
      have e1 : ((refreshAllState s now ft fc fd).cat Category.correspondents)
          = ((refreshRun ((refreshRun s Category.tags now ft).state)
              Category.correspondents now fc).state).cat
              Category.correspondents := by
        unfold refreshAllState
        rw [refresh_cat_ne _ Category.documentTypes now fd
              Category.correspondents (by decide)]
      rw [e1]
      cases fc with
      | ok R =>
        rw [refresh_cat_self_ok]
        cases ft <;> cases fd <;> simp [Hist.setFlag, Hist.flag]
      | error e =>
        rw [refresh_cat_self_err,
            refresh_cat_ne _ Category.tags now ft Category.correspondents
              (by decide)]
        have := h Category.correspondents
        cases ft <;> cases fd <;>
          simpa [Hist.setFlag, Hist.flag] using this
    | documentTypes =>
      simp only [refreshAllState]
      cases fd with
      | ok R =>
        rw [refresh_cat_self_ok]
        cases ft <;> cases fc <;> simp [Hist.setFlag, Hist.flag]
      | error e =>
        rw [refresh_cat_self_err,
            refresh_cat_ne _ Category.correspondents now fc
              Category.documentTypes (by decide),
            refresh_cat_ne _ Category.tags now ft Category.documentTypes
              (by decide)]
        have := h Category.documentTypes
        cases ft <;> cases fc <;>
          simpa [Hist.setFlag, Hist.flag] using this
  | clearAll =>
    simp only [hstep, step, hstepHist]
    cases c <;> simp [histInit, Hist.flag]
  | addOne c0 r =>
    simp only [hstep, step, hstepHist]
    by_cases hc : c = c0
    · subst hc
      simpa [addOneRun] using h c
    · simpa [addOneRun, cat_setCat_ne _ _ _ _ hc] using h c
  | resetStats =>
    simp only [hstep, step, hstepHist]
    simpa using h c

lemma hrun_inv (ops : List Op) :
    ∀ p : MetadataCache × Hist,
      (∀ c, ((p.1.cat c).lastUpdate = none ↔ p.2.flag c = false)) →
      ∀ c, (((hrun p ops).1.cat c).lastUpdate = none
        ↔ (hrun p ops).2.flag c = false) := by
  induction ops with
  | nil => intro p h; exact h
  | cons op rest ih => intro p h; exact ih (hstep p op) (hstep_inv p op h)

/-- Claim C9 counterexample: the stated invariant — `lastRefreshAt` absent
iff entries empty AND no refresh has succeeded since the last clear — is
broken by `addOne` on a never-refreshed category: after `addTag` on the
fresh cache, `lastUpdate` is absent and no refresh has succeeded, yet the
entries mapping is non-empty. -/
theorem claim_C9_counterexample :
    ¬ ((((hrun (initCache 1800000, histInit)
          [Op.addOne Category.tags { id := 1, name := "x" }]).1.cat
            Category.tags).lastUpdate = none) ↔
        ((((hrun (initCache 1800000, histInit)
          [Op.addOne Category.tags { id := 1, name := "x" }]).1.cat
            Category.tags).entries = []) ∧
         (hrun (initCache 1800000, histInit)
          [Op.addOne Category.tags { id := 1, name := "x" }]).2.flag
            Category.tags = false)) := by
  decide

/-- Claim C9 amended: for every category and every sequence of public
operations from the fresh cache, `lastRefreshAt` is absent iff no refresh of
that category has succeeded since the last `clearAll` (or since
construction); the entries-empty conjunct of the original claim is dropped,
since `addOne` can populate a never-refreshed category without setting
`lastRefreshAt`. -/
theorem claim_C9_amended (ttl : Nat) (ops : List Op) (c : Category) :
    (((hrun (initCache ttl, histInit) ops).1.cat c).lastUpdate = none)
      ↔ ((hrun (initCache ttl, histInit) ops).2.flag c = false) := by
  refine hrun_inv ops (initCache ttl, histInit) ?_ c
  intro c'
  cases c' <;> simp [initCache, histInit, MetadataCache.cat, Hist.flag]
